/-
Verification of the PloomFi wallet risk-scoring engine.

The repository contains three variant implementations of a
`WalletRiskEvaluator`:

* `src/wallet-core/proxy_resolver.py` — the configurable cascade evaluator
  (first match wins), with sanitising construction, an early-exit
  `evaluate`, and an `evaluate_detailed` breakdown;
* `src/wallet-core/oracle_insight.py` — the stacking variant with the
  high-frequency and blacklist bonus rules;
* `src/wallet-core/python/ai/bot_detector.py` — a minimal cascade variant
  that indexes record fields directly.

Each variant is embedded below in its own namespace.  Python floats are
modelled as rationals (the code only compares amounts against a threshold,
never performs rounding-sensitive arithmetic), Python ints as `Int`,
missing dictionary keys as `Option` fields.
-/
import Mathlib

namespace PloomFi

/-- ASCII lower-casing of one character, as Python's `str.lower` acts on
the ASCII range used by the code. -/
def lowerChar (c : Char) : Char :=
  if 'A' ≤ c ∧ c ≤ 'Z' then Char.ofNat (c.toNat + 32) else c

/-- `str.lower` on a string, character by character. -/
def lowerStr (s : String) : String := ⟨s.data.map lowerChar⟩

/-- One character list is a prefix of another (Boolean). -/
def isPrefixChars : List Char → List Char → Bool
  | [], _ => true
  | _ :: _, [] => false
  | a :: as, b :: bs => a == b && isPrefixChars as bs

/-- Python's `s.startswith(pre)`. -/
def startsWithStr (s pre : String) : Bool := isPrefixChars pre.data s.data

namespace ProxyResolver

/-- Sanitised transaction, `Tx` in `proxy_resolver.py`. -/
structure Tx where
  amount : ℚ
  type : String
  destination : String
deriving DecidableEq

/-- A raw input record: a dictionary whose three relevant keys may each be
absent (`t.get(...)` with a default). -/
structure RawTx where
  amount : Option ℚ
  type : Option String
  destination : Option String
deriving DecidableEq

/-- The keyword configuration of `WalletRiskEvaluator.__init__`. -/
structure Config where
  large_out_threshold : ℚ
  score_large_out : Int
  score_unknown_dest : Int
  score_baseline : Int
  max_score : Int
deriving DecidableEq

/-- The default keyword arguments: threshold 10000, scores 20/15/5,
max score 100. -/
def defaultConfig : Config := ⟨10000, 20, 15, 5, 100⟩

/-- The compiled pattern `re.compile(r"^unknown(?:_|$)", re.IGNORECASE)`
applied with `re.match` (anchored at the start): the destination, case
folded, either starts with `unknown_` or is exactly `unknown` (regex `$`
also accepts a single trailing newline). -/
def unknownMatch (d : String) : Bool :=
  startsWithStr (lowerStr d) "unknown_"
    || decide (lowerStr d = "unknown")
    || decide (lowerStr d = "unknown\n")

/-- The sanitising loop of `__init__`: missing `amount` becomes `0.0`,
missing `type` becomes `""` and is lower-cased, missing `destination`
becomes `""`. -/
def sanitize (r : RawTx) : Tx :=
  ⟨r.amount.getD 0, lowerStr (r.type.getD ""), r.destination.getD ""⟩

/-- `_score_tx`: the first-match-wins rule cascade, returning the score
and the reason tag. -/
def scoreTx (c : Config) (t : Tx) : Int × String :=
  if t.type = "out" ∧ c.large_out_threshold < t.amount then
    (c.score_large_out, "large_out")
  else if unknownMatch t.destination then
    (c.score_unknown_dest, "unknown_destination")
  else
    (c.score_baseline, "baseline")

/-- The accumulation loop of `evaluate`: add each per-transaction score to
the running total and return `max_score` as soon as the total reaches or
exceeds it; otherwise clamp at the end. -/
def evalLoop (c : Config) : Int → List Tx → Int
  | total, [] => min c.max_score total
  | total, t :: ts =>
    let total' := total + (scoreTx c t).1
    if c.max_score ≤ total' then c.max_score else evalLoop c total' ts

/-- `evaluate`. -/
def evaluate (c : Config) (txs : List Tx) : Int := evalLoop c 0 txs

/-- The accumulation loop of `evaluate_detailed`: same early exit as
`evaluate`, but also collects `(tx, score, reason)` entries; on early exit
the entries collected so far are returned. -/
def detailLoop (c : Config) :
    Int → List (Tx × Int × String) → List Tx → Int × List (Tx × Int × String)
  | total, acc, [] => (min c.max_score total, acc)
  | total, acc, t :: ts =>
    let s := scoreTx c t
    let acc' := acc ++ [(t, s.1, s.2)]
    let total' := total + s.1
    if c.max_score ≤ total' then (c.max_score, acc')
    else detailLoop c total' acc' ts

/-- `evaluate_detailed`. -/
def evaluateDetailed (c : Config) (txs : List Tx) :
    Int × List (Tx × Int × String) :=
  detailLoop c 0 [] txs

/-- The unclamped sum of the per-transaction scores of a list. -/
def sumScores (c : Config) (txs : List Tx) : Int :=
  (txs.map (fun t => (scoreTx c t).1)).sum

/-- The failure the specification prescribes for invalid configurations. -/
inductive ConfigError
  | invalidConfiguration
deriving DecidableEq

/-- `__init__` as a fallible constructor.  The source performs no
configuration validation at all — for any (numeric) configuration it just
stores the fields and sanitises the transactions — so the construction
always succeeds. -/
def mkEvaluator (c : Config) (rs : List RawTx) :
    Except ConfigError (Config × List Tx) :=
  .ok (c, rs.map sanitize)

/-- Modelled from the spec: an invalid configuration per §7 — a negative
large-outbound threshold or a non-positive maximum score (the "empty
required scoring tables" case has no counterpart in this variant's scalar
configuration). -/
def invalidConfig (c : Config) : Prop :=
  c.large_out_threshold < 0 ∨ c.max_score ≤ 0

instance (c : Config) : Decidable (invalidConfig c) :=
  inferInstanceAs (Decidable (_ ∨ _))

end ProxyResolver

namespace OracleInsight

/-- A raw transaction record of `oracle_insight.py`: a dictionary whose
keys may each be absent; timestamps are modelled by their value in
seconds (the code only ever takes differences of timestamps via
`total_seconds()`). -/
structure OTx where
  amount : Option ℚ
  type : Option String
  destination : Option String
  timestamp : Option Int
deriving DecidableEq

/-- Placeholder record used for out-of-range `getD` access only; the
loops below only ever index inside the list. -/
def dOTx : OTx := ⟨none, none, none, none⟩

/-- `abs((tx_time - other_time).total_seconds()) < 60`, guarded by
`other_time` being present (`if other_time and ...`). -/
def within60 (t : Int) (r : OTx) : Bool :=
  match r.timestamp with
  | some u => decide ((t - u).natAbs < 60)
  | none => false

/-- `_is_high_frequency` for the transaction at position `i`: the Python
loop ranges over the objects of `self.transactions` and skips the current
object via `other is not tx`; since each record in the list is a distinct
object, identity is position, so the loop is the enumeration of the list
with the current position skipped.  A missing timestamp returns `False`
immediately. -/
def isHighFrequency (txs : List OTx) (i : Nat) : Bool :=
  match (txs.getD i dOTx).timestamp with
  | none => false
  | some t =>
    decide (3 ≤ (txs.enum.countP (fun p => decide (p.1 ≠ i) && within60 t p.2)))

/-- Rule 1 of `_evaluate_tx`: `tx.get('amount', 0) > 10000 and
tx.get('type') == 'out'` (a missing `type` is `None` and never equals
`'out'`). -/
def oiRule1 (r : OTx) : Bool :=
  decide ((10000 : ℚ) < r.amount.getD 0) && decide (r.type = some "out")

/-- Rule 2: `tx.get('destination', '').startswith("unknown_")`. -/
def oiRule2 (r : OTx) : Bool :=
  startsWithStr (r.destination.getD "") "unknown_"

/-- The fixed blacklist of `_is_blacklisted`. -/
def blacklist : List String :=
  ["unknown_wallet", "suspicious_address", "scam_target"]

/-- Rule 4: `_is_blacklisted(tx.get('destination', ''))`, an exact,
case-sensitive membership test. -/
def oiRule4 (r : OTx) : Bool := blacklist.contains (r.destination.getD "")

/-- The `risk_points` accumulated by `_evaluate_tx` for the transaction at
position `i`: the four rules are additive. -/
def riskPoints (txs : List OTx) (i : Nat) : Int :=
  (if oiRule1 (txs.getD i dOTx) then 20 else 0)
    + (if oiRule2 (txs.getD i dOTx) then 15 else 0)
    + (if isHighFrequency txs i then 10 else 0)
    + (if oiRule4 (txs.getD i dOTx) then 25 else 0)

/-- The non-positional part of `risk_points`: rules 1, 2 and 4, which
depend only on the record itself. -/
def basePoints (r : OTx) : Int :=
  (if oiRule1 r then 20 else 0)
    + (if oiRule2 r then 15 else 0)
    + (if oiRule4 r then 25 else 0)

/-- `return risk_points or 5`: zero points degrade to the baseline 5. -/
def evaluateTxAt (txs : List OTx) (i : Nat) : Int :=
  if riskPoints txs i = 0 then 5 else riskPoints txs i

/-- The unclamped sum of `_evaluate_tx` over the list. -/
def sumScores (txs : List OTx) : Int :=
  ((List.range txs.length).map (evaluateTxAt txs)).sum

/-- `evaluate`: sum all per-transaction scores, then `min(100, score)`.
This variant has no early exit. -/
def evaluate (txs : List OTx) : Int := min 100 (sumScores txs)

end OracleInsight

namespace BotDetector

/-- A raw transaction record of `bot_detector.py`; fields may be absent
(the code indexes them directly, so an absent field raises `KeyError`). -/
structure BRaw where
  amount : Option ℚ
  type : Option String
  destination : Option String
deriving DecidableEq

/-- The runtime error a direct dictionary access can raise. -/
inductive PyError
  | keyError (key : String)
deriving DecidableEq

/-- The `elif`/`return` tail of `_evaluate_tx`: read `tx['destination']`
(raising `KeyError` when absent) and score 15 for an `unknown_` prefix,
else the baseline 5. -/
def scoreDest (r : BRaw) : Except PyError Int :=
  match r.destination with
  | none => .error (.keyError "destination")
  | some d => .ok (if startsWithStr d "unknown_" then 15 else 5)

/-- `_evaluate_tx`, with Python's evaluation order: `tx['amount']` is
always read and raises `KeyError` when absent; `tx['type']` is read only
when the amount test passes (`and` short-circuits); `tx['destination']`
is read whenever the first condition fails. -/
def evaluateTx (r : BRaw) : Except PyError Int :=
  match r.amount with
  | none => .error (.keyError "amount")
  | some a =>
    if (10000 : ℚ) < a then
      match r.type with
      | none => .error (.keyError "type")
      | some ty => if ty = "out" then .ok 20 else scoreDest r
    else scoreDest r

/-- The accumulation loop of `evaluate`; a `KeyError` in `_evaluate_tx`
propagates and aborts the evaluation. -/
def evalList : Int → List BRaw → Except PyError Int
  | s, [] => .ok (min 100 s)
  | s, r :: rs =>
    match evaluateTx r with
    | .error e => .error e
    | .ok v => evalList (s + v) rs

/-- `evaluate`. -/
def evaluate (rs : List BRaw) : Except PyError Int := evalList 0 rs

end BotDetector

/-! ## Helper lemmas for the proxy_resolver variant -/

namespace ProxyResolver

lemma scoreTx_fst_nonneg {c : Config} (h1 : 0 ≤ c.score_large_out)
    (h2 : 0 ≤ c.score_unknown_dest) (h3 : 0 ≤ c.score_baseline) (t : Tx) :
    0 ≤ (scoreTx c t).1 := by
  unfold scoreTx
  split
  · exact h1
  · split
    · exact h2
    · exact h3

lemma sumScores_nonneg {c : Config} (h1 : 0 ≤ c.score_large_out)
    (h2 : 0 ≤ c.score_unknown_dest) (h3 : 0 ≤ c.score_baseline) :
    ∀ txs : List Tx, 0 ≤ sumScores c txs := by
  intro txs
  induction txs with
  | nil => simp [sumScores]
  | cons t ts ih =>
    have ht := scoreTx_fst_nonneg h1 h2 h3 t
    simp only [sumScores, List.map_cons, List.sum_cons] at ih ⊢
    omega

lemma sumScores_cons (c : Config) (t : Tx) (ts : List Tx) :
    sumScores c (t :: ts) = (scoreTx c t).1 + sumScores c ts := by
  simp [sumScores]

/-- With non-negative per-rule scores, the early-exit loop computes the
clamped sum, whatever the starting total is. -/
lemma evalLoop_eq_min {c : Config} (h1 : 0 ≤ c.score_large_out)
    (h2 : 0 ≤ c.score_unknown_dest) (h3 : 0 ≤ c.score_baseline) :
    ∀ (txs : List Tx) (total : Int),
      evalLoop c total txs = min c.max_score (total + sumScores c txs) := by
  intro txs
  induction txs with
  | nil => intro total; simp [evalLoop, sumScores]
  | cons t ts ih =>
    intro total
    rw [sumScores_cons]
    show (if c.max_score ≤ total + (scoreTx c t).1 then c.max_score
        else evalLoop c (total + (scoreTx c t).1) ts)
      = min c.max_score (total + ((scoreTx c t).1 + sumScores c ts))
    split
    · have hs := sumScores_nonneg h1 h2 h3 ts
      omega
    · rw [ih]
      omega

/-- With non-negative per-rule scores `evaluate` is the clamped sum of the
per-transaction scores. -/
lemma evaluate_eq_min {c : Config} (h1 : 0 ≤ c.score_large_out)
    (h2 : 0 ≤ c.score_unknown_dest) (h3 : 0 ≤ c.score_baseline)
    (txs : List Tx) :
    evaluate c txs = min c.max_score (sumScores c txs) := by
  have h := evalLoop_eq_min h1 h2 h3 txs 0
  simpa [evaluate] using h

/-- The detail entry produced for one transaction. -/
def detailOf (c : Config) (t : Tx) : Tx × Int × String :=
  (t, (scoreTx c t).1, (scoreTx c t).2)

lemma evalLoop_cons (c : Config) (total : Int) (t : Tx) (ts : List Tx) :
    evalLoop c total (t :: ts)
      = if c.max_score ≤ total + (scoreTx c t).1 then c.max_score
        else evalLoop c (total + (scoreTx c t).1) ts := rfl

lemma detailLoop_nil (c : Config) (total : Int)
    (acc : List (Tx × Int × String)) :
    detailLoop c total acc [] = (min c.max_score total, acc) := rfl

lemma detailLoop_cons (c : Config) (total : Int)
    (acc : List (Tx × Int × String)) (t : Tx) (ts : List Tx) :
    detailLoop c total acc (t :: ts)
      = if c.max_score ≤ total + (scoreTx c t).1
        then (c.max_score, acc ++ [detailOf c t])
        else detailLoop c (total + (scoreTx c t).1)
          (acc ++ [detailOf c t]) ts := rfl

/-- Invariant of the `evaluate_detailed` loop: its total agrees with the
`evaluate` loop, the clamped sum of the scores in the returned details
equals the returned total, the details extend the accumulator by the
detail entries of a prefix of the remaining transactions, and either every
remaining transaction got an entry or the returned total is `max_score`. -/
lemma detailLoop_spec (c : Config) :
    ∀ (txs : List Tx) (total : Int) (acc : List (Tx × Int × String)),
      (acc.map (fun p => p.2.1)).sum = total →
      (detailLoop c total acc txs).1 = evalLoop c total txs
      ∧ min c.max_score
          (((detailLoop c total acc txs).2.map (fun p => p.2.1)).sum)
        = (detailLoop c total acc txs).1
      ∧ (∃ k, k ≤ txs.length
          ∧ (detailLoop c total acc txs).2 = acc ++ (txs.take k).map (detailOf c))
      ∧ ((detailLoop c total acc txs).2.length = acc.length + txs.length
          ∨ (detailLoop c total acc txs).1 = c.max_score) := by
  intro txs
  induction txs with
  | nil =>
    intro total acc hacc
    rw [detailLoop_nil]
    exact ⟨rfl, by rw [hacc], ⟨0, by simp⟩, Or.inl (by simp)⟩
  | cons t ts ih =>
    intro total acc hacc
    have hacc' : ((acc ++ [detailOf c t]).map (fun p => p.2.1)).sum
        = total + (scoreTx c t).1 := by
      simp [detailOf, hacc]
    rw [detailLoop_cons, evalLoop_cons]
    by_cases hstop : c.max_score ≤ total + (scoreTx c t).1
    · rw [if_pos hstop, if_pos hstop]
      refine ⟨rfl, ?_, ⟨1, by simp, by simp⟩, Or.inr rfl⟩
      rw [hacc']
      omega
    · rw [if_neg hstop, if_neg hstop]
      obtain ⟨hfst, hmin, ⟨k, hk, hpre⟩, hlen⟩ :=
        ih (total + (scoreTx c t).1) (acc ++ [detailOf c t]) hacc'
      refine ⟨hfst, hmin, ⟨k + 1, by simpa using hk, ?_⟩, ?_⟩
      · rw [hpre, List.take_succ_cons, List.map_cons, List.append_assoc]
        rfl
      · rcases hlen with hlen | hlen
        · left
          rw [hlen]
          simp
          omega
        · right
          exact hlen

end ProxyResolver

/-! ## Helper lemmas for the oracle_insight variant -/

namespace OracleInsight

/-- Counting over the enumeration of a list is counting over its index
range, reading the element at each index. -/
lemma countP_enumFrom (f : Nat → OTx → Bool) :
    ∀ (txs : List OTx) (n : Nat),
      (txs.enumFrom n).countP (fun p => f p.1 p.2)
        = (List.range txs.length).countP (fun j => f (n + j) (txs.getD j dOTx)) := by
  intro txs
  induction txs with
  | nil => intro n; rfl
  | cons t ts ih =>
    intro n
    rw [List.enumFrom_cons, List.countP_cons, List.length_cons,
      List.range_succ_eq_map, List.countP_cons, List.countP_map]
    have hmap : ((fun j => f (n + j) ((t :: ts).getD j dOTx)) ∘ Nat.succ)
        = fun j => f ((n + 1) + j) (ts.getD j dOTx) := by
      funext j
      simp only [Function.comp]
      rw [List.getD_cons_succ]
      congr 1
      omega
    rw [hmap, ← ih (n + 1)]
    simp

lemma countP_enum (f : Nat → OTx → Bool) (txs : List OTx) :
    txs.enum.countP (fun p => f p.1 p.2)
      = (List.range txs.length).countP (fun j => f j (txs.getD j dOTx)) := by
  rw [List.enum_eq_enumFrom, countP_enumFrom]
  simp

/-- The high-frequency test per position, in terms of the index range. -/
lemma isHighFrequency_eq_range (txs : List OTx) (i : Nat) :
    isHighFrequency txs i
      = match (txs.getD i dOTx).timestamp with
        | none => false
        | some t =>
          decide (3 ≤ (List.range txs.length).countP
            (fun j => decide (j ≠ i) && within60 t (txs.getD j dOTx))) := by
  unfold isHighFrequency
  cases h : (txs.getD i dOTx).timestamp with
  | none => rfl
  | some t =>
    simp only []
    rw [countP_enum (fun j r => decide (j ≠ i) && within60 t r) txs]

lemma getD_append_single {L : List OTx} {t : OTx} {i : Nat}
    (h : i < L.length) : (L ++ [t]).getD i dOTx = L.getD i dOTx :=
  List.getD_append L [t] dOTx i h

/-- Appending a transaction can only grow the within-60-seconds count of
an existing transaction, so the high-frequency flag is monotone under
append. -/
lemma isHighFrequency_append_mono {L : List OTx} {t : OTx} {i : Nat}
    (hi : i < L.length) (h : isHighFrequency L i = true) :
    isHighFrequency (L ++ [t]) i = true := by
  rw [isHighFrequency_eq_range] at h ⊢
  rw [getD_append_single hi]
  cases ht : (L.getD i dOTx).timestamp with
  | none => rw [ht] at h; exact absurd h (by simp)
  | some u =>
    rw [ht] at h
    simp only [decide_eq_true_eq] at h ⊢
    rw [List.length_append, List.length_singleton, List.range_succ,
      List.countP_append]
    have hcong : (List.range L.length).countP
        (fun j => decide (j ≠ i) && within60 u ((L ++ [t]).getD j dOTx))
        = (List.range L.length).countP
          (fun j => decide (j ≠ i) && within60 u (L.getD j dOTx)) := by
      apply List.countP_congr
      intro j hj
      rw [List.mem_range] at hj
      rw [getD_append_single hj]
    omega

/-- `risk_points` decomposed into its position-independent rules plus the
high-frequency bonus. -/
lemma riskPoints_eq_basePoints (txs : List OTx) (i : Nat) :
    riskPoints txs i
      = basePoints (txs.getD i dOTx)
        + (if isHighFrequency txs i then 10 else 0) := by
  unfold riskPoints basePoints
  omega

/-- The four additive rule contributions make `risk_points` either zero or
at least 10. -/
lemma riskPoints_zero_or_ge_ten (txs : List OTx) (i : Nat) :
    riskPoints txs i = 0 ∨ 10 ≤ riskPoints txs i := by
  have hgen : ∀ a b chf d : Bool,
      ((if a then (20 : Int) else 0) + (if b then 15 else 0)
        + (if chf then 10 else 0) + (if d then 25 else 0)) = 0
      ∨ 10 ≤ ((if a then (20 : Int) else 0) + (if b then 15 else 0)
        + (if chf then 10 else 0) + (if d then 25 else 0)) := by
    decide
  exact hgen _ _ _ _

/-- Every per-transaction score of the stacking variant is at least the
baseline 5. -/
lemma evaluateTxAt_ge_five (txs : List OTx) (i : Nat) :
    5 ≤ evaluateTxAt txs i := by
  unfold evaluateTxAt
  rcases riskPoints_zero_or_ge_ten txs i with h | h
  · rw [if_pos h]
  · rw [if_neg (by omega)]
    omega

/-- Appending a transaction never lowers the `risk_points` of an existing
position: it either leaves them unchanged or adds the high-frequency
bonus. -/
lemma riskPoints_append (L : List OTx) (t : OTx) {i : Nat}
    (hi : i < L.length) :
    riskPoints (L ++ [t]) i = riskPoints L i
      ∨ riskPoints (L ++ [t]) i = riskPoints L i + 10 := by
  rw [riskPoints_eq_basePoints, riskPoints_eq_basePoints,
    getD_append_single hi]
  by_cases hL : isHighFrequency L i = true
  · left
    rw [hL, isHighFrequency_append_mono hi hL]
  · rw [Bool.not_eq_true] at hL
    by_cases hLt : isHighFrequency (L ++ [t]) i = true
    · right
      rw [hL, hLt]
      simp
    · left
      rw [Bool.not_eq_true] at hLt
      rw [hL, hLt]

/-- Appending a transaction never lowers the score of an existing
position. -/
lemma evaluateTxAt_append_mono (L : List OTx) (t : OTx) {i : Nat}
    (hi : i < L.length) :
    evaluateTxAt L i ≤ evaluateTxAt (L ++ [t]) i := by
  unfold evaluateTxAt
  rcases riskPoints_append L t hi with h | h
  · rw [h]
  · rw [h]
    rcases riskPoints_zero_or_ge_ten L i with h0 | h0
    · rw [if_pos h0, if_neg (by omega)]
      omega
    · rw [if_neg (by omega), if_neg (by omega)]
      omega

end OracleInsight

/-! ## Further helper lemmas -/

namespace ProxyResolver

/-- Under the default configuration every branch of the cascade awards at
least the baseline 5. -/
lemma scoreTx_default_ge_five (t : Tx) :
    5 ≤ (scoreTx defaultConfig t).1 := by
  unfold scoreTx
  split
  · decide
  split
  · decide
  · decide

lemma sumScores_append_tx (c : Config) (L : List Tx) (t : Tx) :
    sumScores c (L ++ [t]) = sumScores c L + (scoreTx c t).1 := by
  simp [sumScores]

end ProxyResolver

namespace OracleInsight

/-- The unclamped sum of per-transaction scores of the stacking variant is
non-decreasing under append: existing positions keep their records, their
within-60-seconds counts can only grow, and the appended transaction
contributes a non-negative (indeed ≥ 5) score. -/
lemma sumScores_append_le (L : List OTx) (t : OTx) :
    sumScores L ≤ sumScores (L ++ [t]) := by
  unfold sumScores
  rw [List.length_append, List.length_singleton, List.range_succ,
    List.map_append, List.sum_append]
  have h1 : ((List.range L.length).map (evaluateTxAt L)).sum
      ≤ ((List.range L.length).map (evaluateTxAt (L ++ [t]))).sum := by
    apply List.sum_le_sum
    intro i hi
    rw [List.mem_range] at hi
    exact evaluateTxAt_append_mono L t hi
  have h2 : (5 : Int) ≤ ([L.length].map (evaluateTxAt (L ++ [t]))).sum := by
    have h5 := evaluateTxAt_ge_five (L ++ [t]) L.length
    simpa using h5
  omega

end OracleInsight

namespace BotDetector

/-- Whenever `_evaluate_tx` returns (rather than raising `KeyError`), the
score is one of 20, 15 or 5, hence at least the baseline 5. -/
lemma evaluateTx_ok_ge_five (r : BRaw) (s : Int)
    (h : evaluateTx r = .ok s) : 5 ≤ s := by
  have hdest : ∀ s', scoreDest r = .ok s' → 5 ≤ s' := by
    intro s' h'
    unfold scoreDest at h'
    cases hd : r.destination with
    | none => rw [hd] at h'; cases h'
    | some d =>
      rw [hd] at h'
      cases h'
      split <;> omega
  unfold evaluateTx at h
  split at h
  · cases h
  · split at h
    · split at h
      · cases h
      · split at h
        · cases h
          omega
        · exact hdest s h
    · exact hdest s h

end BotDetector

/-! ## Claim theorems -/

/-- C1 (amended): for every transaction list and every configuration whose
per-rule scores and max_score are non-negative — the defaults are —
`evaluate()` returns an integer score `s` with `0 ≤ s ≤ max_score`, and
`evaluate([]) = 0`.  (Over literally every configuration the claim fails,
because the constructor also accepts negative rule scores; see the
counterexample.) -/
theorem claim_C1_evaluate_bounded (c : ProxyResolver.Config)
    (txs : List ProxyResolver.Tx)
    (h1 : 0 ≤ c.score_large_out) (h2 : 0 ≤ c.score_unknown_dest)
    (h3 : 0 ≤ c.score_baseline) (h4 : 0 ≤ c.max_score) :
    (0 ≤ ProxyResolver.evaluate c txs
      ∧ ProxyResolver.evaluate c txs ≤ c.max_score)
    ∧ ProxyResolver.evaluate c ([] : List ProxyResolver.Tx) = 0 := by
  constructor
  · rw [ProxyResolver.evaluate_eq_min h1 h2 h3]
    have hs := ProxyResolver.sumScores_nonneg h1 h2 h3 txs
    constructor
    · omega
    · omega
  · show min c.max_score 0 = 0
    omega

/-- C1 witness: the bounds at the default configuration on a concrete
list. -/
theorem claim_C1_witness :
    (0 ≤ ProxyResolver.evaluate ProxyResolver.defaultConfig
        [⟨12000, "out", "k"⟩]
      ∧ ProxyResolver.evaluate ProxyResolver.defaultConfig
          [⟨12000, "out", "k"⟩] ≤ ProxyResolver.defaultConfig.max_score)
    ∧ ProxyResolver.evaluate ProxyResolver.defaultConfig
        ([] : List ProxyResolver.Tx) = 0 :=
  claim_C1_evaluate_bounded ProxyResolver.defaultConfig
    [⟨12000, "out", "k"⟩] (by decide) (by decide) (by decide) (by decide)

/-- C1 counterexample: the constructor accepts a configuration with
baseline score −5 (it performs no validation), and on it a single
ordinary transaction evaluates to −5, outside `[0, max_score]`. -/
theorem claim_C1_counterexample :
    ¬ (0 ≤ ProxyResolver.evaluate ⟨10000, 20, 15, -5, 100⟩
        [⟨1, "in", "y"⟩]) := by
  decide

/-- C2: the cascade is first-match-wins with no points-stacking — the
large-outbound rule fires regardless of the destination, the
unknown-destination rule fires only when the large-outbound rule does
not, and otherwise the baseline applies; in particular the single
transaction `{amount: 300, type: "out", destination: "unknown_wallet"}`
scores exactly 15 under the default configuration (in the bot_detector
cascade variant as well). -/
theorem claim_C2_first_match_wins :
    (∀ (c : ProxyResolver.Config) (t : ProxyResolver.Tx),
        t.type = "out" → c.large_out_threshold < t.amount →
        ProxyResolver.scoreTx c t = (c.score_large_out, "large_out"))
    ∧ (∀ (c : ProxyResolver.Config) (t : ProxyResolver.Tx),
        ¬ (t.type = "out" ∧ c.large_out_threshold < t.amount) →
        ProxyResolver.unknownMatch t.destination = true →
        ProxyResolver.scoreTx c t = (c.score_unknown_dest, "unknown_destination"))
    ∧ (∀ (c : ProxyResolver.Config) (t : ProxyResolver.Tx),
        ¬ (t.type = "out" ∧ c.large_out_threshold < t.amount) →
        ProxyResolver.unknownMatch t.destination = false →
        ProxyResolver.scoreTx c t = (c.score_baseline, "baseline"))
    ∧ ProxyResolver.evaluate ProxyResolver.defaultConfig
        [⟨300, "out", "unknown_wallet"⟩] = 15
    ∧ BotDetector.evaluate [⟨some 300, some "out", some "unknown_wallet"⟩]
        = .ok 15 := by
  refine ⟨?_, ?_, ?_, by decide, rfl⟩
  · intro c t ht ha
    unfold ProxyResolver.scoreTx
    rw [if_pos ⟨ht, ha⟩]
  · intro c t hno hu
    unfold ProxyResolver.scoreTx
    rw [if_neg hno, if_pos hu]
  · intro c t hno hu
    unfold ProxyResolver.scoreTx
    rw [if_neg hno, if_neg (by simp [hu])]

/-- C2 witness: a transaction matching both the large-outbound and the
unknown-destination conditions scores only `score_large_out` — first
match wins, no stacking. -/
theorem claim_C2_witness :
    ProxyResolver.scoreTx ProxyResolver.defaultConfig
        ⟨12000, "out", "unknown_wallet"⟩
      = (ProxyResolver.defaultConfig.score_large_out, "large_out") :=
  claim_C2_first_match_wins.1 ProxyResolver.defaultConfig
    ⟨12000, "out", "unknown_wallet"⟩ rfl (by decide)

/-- C3 (amended): for every transaction list and every configuration with
non-negative per-rule scores — the defaults are — the early-exit
`evaluate()` equals the clamped sum `min(max_score, Σ per-tx scores)`.
(Over literally every configuration the claim fails: with a negative rule
score the early exit can return `max_score` while the full clamped sum is
smaller; see the counterexample.) -/
theorem claim_C3_early_exit_eq_clamp (c : ProxyResolver.Config)
    (txs : List ProxyResolver.Tx)
    (h1 : 0 ≤ c.score_large_out) (h2 : 0 ≤ c.score_unknown_dest)
    (h3 : 0 ≤ c.score_baseline) :
    ProxyResolver.evaluate c txs
      = min c.max_score (ProxyResolver.sumScores c txs) :=
  ProxyResolver.evaluate_eq_min h1 h2 h3 txs

/-- C3 witness: the equality at the default configuration on a concrete
list long enough to trigger the early exit. -/
theorem claim_C3_witness :
    ProxyResolver.evaluate ProxyResolver.defaultConfig
        (List.replicate 7 ⟨20000, "out", "k"⟩)
      = min ProxyResolver.defaultConfig.max_score
          (ProxyResolver.sumScores ProxyResolver.defaultConfig
            (List.replicate 7 ⟨20000, "out", "k"⟩)) :=
  claim_C3_early_exit_eq_clamp ProxyResolver.defaultConfig
    (List.replicate 7 ⟨20000, "out", "k"⟩)
    (by decide) (by decide) (by decide)

/-- C3 counterexample: with the (accepted) configuration `max_score = 10`,
`score_baseline = −100`, the early exit fires on the first transaction
and returns 10, while the clamped sum of all per-transaction scores is
−80. -/
theorem claim_C3_counterexample :
    ProxyResolver.evaluate ⟨10000, 20, 15, -100, 10⟩
        [⟨20000, "out", "x"⟩, ⟨1, "in", "y"⟩]
      ≠ min (10 : Int)
          (ProxyResolver.sumScores ⟨10000, 20, 15, -100, 10⟩
            [⟨20000, "out", "x"⟩, ⟨1, "in", "y"⟩]) := by
  decide

/-- C4: for every transaction list and every configuration, the total
returned by `evaluate_detailed()` equals `evaluate()`, and the sum of the
per-transaction scores it returns, clamped to `max_score`, also equals
`evaluate()`. -/
theorem claim_C4_detailed_consistency (c : ProxyResolver.Config)
    (txs : List ProxyResolver.Tx) :
    (ProxyResolver.evaluateDetailed c txs).1 = ProxyResolver.evaluate c txs
    ∧ min c.max_score
        (((ProxyResolver.evaluateDetailed c txs).2.map
          (fun p => p.2.1)).sum)
      = ProxyResolver.evaluate c txs := by
  obtain ⟨h1, h2, -, -⟩ := ProxyResolver.detailLoop_spec c txs 0 [] rfl
  exact ⟨h1, by rw [ProxyResolver.evaluateDetailed, h2, h1]; rfl⟩

/-- C5 counterexample: on six large outbound transactions under the
default configuration the early exit fires after the fifth, and
`evaluate_detailed` returns only 5 entries for the 6 transactions — not
one entry for every transaction. -/
theorem claim_C5_counterexample :
    (ProxyResolver.evaluateDetailed ProxyResolver.defaultConfig
        (List.replicate 6 ⟨20000, "out", "k"⟩)).2.length = 5
    ∧ (List.replicate 6 (⟨20000, "out", "k"⟩ : ProxyResolver.Tx)).length
        = 6 := by
  constructor
  · decide
  · rfl

/-- C5 (amended): `evaluate_detailed()` returns one `(transaction, score,
reason)` entry per transaction only up to the point where the running
total reaches `max_score`: its detail list is the per-transaction detail
of a prefix of the input, it covers every transaction unless the returned
total is `max_score` (the early-exit case), and the returned total is
clamped — it equals `evaluate()`. -/
theorem claim_C5_detail_prefix (c : ProxyResolver.Config)
    (txs : List ProxyResolver.Tx) :
    (∃ k, k ≤ txs.length
      ∧ (ProxyResolver.evaluateDetailed c txs).2
          = (txs.take k).map (ProxyResolver.detailOf c))
    ∧ ((ProxyResolver.evaluateDetailed c txs).2.length = txs.length
        ∨ (ProxyResolver.evaluateDetailed c txs).1 = c.max_score)
    ∧ (ProxyResolver.evaluateDetailed c txs).1
        = ProxyResolver.evaluate c txs := by
  obtain ⟨h1, -, ⟨k, hk, hpre⟩, hlen⟩ :=
    ProxyResolver.detailLoop_spec c txs 0 [] rfl
  refine ⟨⟨k, hk, by simpa using hpre⟩, ?_, h1⟩
  simpa using hlen

/-- C6 counterexample: in the bot_detector variant `_evaluate_tx` indexes
the record directly, so a record missing `amount` aborts evaluation with
a `KeyError` — construction/evaluation does not degrade gracefully in
that variant. -/
theorem claim_C6_counterexample :
    BotDetector.evaluate [⟨none, none, some "x"⟩]
      = .error (.keyError "amount") := rfl

/-- C6 (amended): the sanitising evaluator (proxy_resolver) never fails:
construction always succeeds, a missing amount defaults to 0.0, a missing
type to the empty string (lower-cased), a missing destination to the
empty string, and the all-defaults record is baseline-eligible.  The
bot_detector variant, by contrast, aborts with `KeyError` on records
missing a field (see the counterexample). -/
theorem claim_C6_graceful_degradation :
    (∀ (c : ProxyResolver.Config) (rs : List ProxyResolver.RawTx),
        (ProxyResolver.mkEvaluator c rs).isOk = true)
    ∧ ProxyResolver.sanitize ⟨none, none, none⟩ = ⟨0, "", ""⟩
    ∧ ProxyResolver.sanitize ⟨none, some "OUT", none⟩ = ⟨0, "out", ""⟩
    ∧ ProxyResolver.evaluate ProxyResolver.defaultConfig
        [ProxyResolver.sanitize ⟨none, none, none⟩]
      = ProxyResolver.defaultConfig.score_baseline := by
  exact ⟨fun c rs => rfl, by decide, by decide, by decide⟩

/-- C7: the specification requires invalid configurations (negative
threshold, `max_score ≤ 0`) to be rejected with `InvalidConfiguration` at
construction time, but the constructor performs no validation at all: the
invalid configuration with `max_score = 0` is accepted
(`mkEvaluator` succeeds) and evaluation then proceeds without error. -/
theorem claim_C7_no_validation :
    ProxyResolver.invalidConfig ⟨10000, 20, 15, 5, 0⟩
    ∧ ProxyResolver.mkEvaluator ⟨10000, 20, 15, 5, 0⟩ []
        = .ok (⟨10000, 20, 15, 5, 0⟩, [])
    ∧ ProxyResolver.evaluate ⟨10000, 20, 15, 5, 0⟩ [] = 0 := by
  exact ⟨Or.inr (by decide), rfl, by decide⟩

set_option maxRecDepth 100000 in
/-- C8: in the stacking variant, the high-frequency flag of the
transaction at position `i` is set exactly when it has a timestamp `t`
and at least 3 other positions hold a transaction whose timestamp differs
from `t` by strictly less than 60 seconds; a record without a timestamp
is never within 60 seconds of anything (so it never counts toward
another's total and, having no timestamp, never triggers the rule
itself); the flag adds exactly the 10-point bonus on top of the other
rules; and in a list of 200 transactions sharing one timestamp the rule
fires at every position. -/
theorem claim_C8_high_frequency :
    (∀ (txs : List OracleInsight.OTx) (i : Nat),
        OracleInsight.isHighFrequency txs i = true
          ↔ ∃ t, (txs.getD i OracleInsight.dOTx).timestamp = some t
              ∧ 3 ≤ (List.range txs.length).countP
                  (fun j => decide (j ≠ i)
                    && OracleInsight.within60 t (txs.getD j OracleInsight.dOTx)))
    ∧ (∀ (t : Int) (a : Option ℚ) (b d : Option String),
        OracleInsight.within60 t ⟨a, b, d, none⟩ = false)
    ∧ (∀ (txs : List OracleInsight.OTx) (i : Nat),
        OracleInsight.riskPoints txs i
          = OracleInsight.basePoints (txs.getD i OracleInsight.dOTx)
            + (if OracleInsight.isHighFrequency txs i then 10 else 0))
    ∧ (List.range 200).all
        (fun i => OracleInsight.isHighFrequency
          (List.replicate 200 ⟨some 1, some "in", some "d", some 0⟩) i)
      = true := by
  refine ⟨?_, fun t a b d => rfl, OracleInsight.riskPoints_eq_basePoints,
    by decide⟩
  intro txs i
  rw [OracleInsight.isHighFrequency_eq_range]
  cases ht : (txs.getD i OracleInsight.dOTx).timestamp with
  | none =>
    simp
  | some t =>
    simp only [decide_eq_true_eq]
    constructor
    · intro h
      exact ⟨t, rfl, h⟩
    · rintro ⟨u, hu, hcount⟩
      cases hu
      exact hcount

/-- C9: the unclamped sum of per-transaction scores is non-decreasing
under append, both for the cascade evaluator under its default
configuration (every per-transaction score is non-negative there) and for
the stacking variant (where appending can also raise the scores of
earlier transactions, never lower them). -/
theorem claim_C9_sum_monotone_append :
    (∀ (L : List ProxyResolver.Tx) (t : ProxyResolver.Tx),
        ProxyResolver.sumScores ProxyResolver.defaultConfig L
          ≤ ProxyResolver.sumScores ProxyResolver.defaultConfig (L ++ [t]))
    ∧ (∀ t : ProxyResolver.Tx,
        0 ≤ (ProxyResolver.scoreTx ProxyResolver.defaultConfig t).1)
    ∧ (∀ (L : List OracleInsight.OTx) (t : OracleInsight.OTx),
        OracleInsight.sumScores L ≤ OracleInsight.sumScores (L ++ [t])) := by
  refine ⟨?_, ?_, OracleInsight.sumScores_append_le⟩
  · intro L t
    rw [ProxyResolver.sumScores_append_tx]
    have h := ProxyResolver.scoreTx_default_ge_five t
    omega
  · intro t
    have h := ProxyResolver.scoreTx_default_ge_five t
    omega

/-- C10: every per-transaction score is at least the baseline 5 under the
default configuration (in all three variants), so a non-empty list
evaluates to at least `min(max_score, score_baseline)` and can never
score 0. -/
theorem claim_C10_nonempty_floor :
    (∀ t : ProxyResolver.Tx,
        ProxyResolver.defaultConfig.score_baseline
          ≤ (ProxyResolver.scoreTx ProxyResolver.defaultConfig t).1)
    ∧ (∀ (x : ProxyResolver.Tx) (L : List ProxyResolver.Tx),
        min ProxyResolver.defaultConfig.max_score
            ProxyResolver.defaultConfig.score_baseline
          ≤ ProxyResolver.evaluate ProxyResolver.defaultConfig (x :: L)
        ∧ ProxyResolver.evaluate ProxyResolver.defaultConfig (x :: L) ≠ 0)
    ∧ (∀ (txs : List OracleInsight.OTx) (i : Nat),
        5 ≤ OracleInsight.evaluateTxAt txs i)
    ∧ (∀ (r : BotDetector.BRaw) (s : Int),
        BotDetector.evaluateTx r = .ok s → 5 ≤ s) := by
  refine ⟨ProxyResolver.scoreTx_default_ge_five, ?_,
    OracleInsight.evaluateTxAt_ge_five, BotDetector.evaluateTx_ok_ge_five⟩
  intro x L
  have heq := ProxyResolver.evaluate_eq_min (c := ProxyResolver.defaultConfig)
    (by decide) (by decide) (by decide) (x :: L)
  have hx := ProxyResolver.scoreTx_default_ge_five x
  have hL := ProxyResolver.sumScores_nonneg
    (c := ProxyResolver.defaultConfig) (by decide) (by decide) (by decide) L
  rw [ProxyResolver.sumScores_cons] at heq
  have hmax : ProxyResolver.defaultConfig.max_score = 100 := rfl
  have hbase : ProxyResolver.defaultConfig.score_baseline = 5 := rfl
  constructor
  · rw [heq, hmax, hbase]
    omega
  · rw [heq, hmax]
    omega

/-- C10 witness: the floor evaluated concretely, and the bot_detector
bound applied at a record that scores the baseline. -/
theorem claim_C10_witness :
    min ProxyResolver.defaultConfig.max_score
        ProxyResolver.defaultConfig.score_baseline
      ≤ ProxyResolver.evaluate ProxyResolver.defaultConfig
          [⟨500, "in", "friend_wallet"⟩]
    ∧ (5 : Int) ≤ 5 :=
  ⟨(claim_C10_nonempty_floor.2.1 ⟨500, "in", "friend_wallet"⟩ []).1,
    claim_C10_nonempty_floor.2.2.2 ⟨some 500, some "in", some "friend_wallet"⟩
      5 rfl⟩

end PloomFi
